import Mathlib

/-!
Shallow embedding of the CRM route-handler module
(`src/client/components/CRMAccounts.tsx`, Express handlers section) and of the
Accounts-view save logic from the same file.  Pure functions model the string
transforms; stateful ORM calls are modelled by explicit state passing over
lists of records; fallible ORM calls return `Except`.
-/

/-- ASCII whitespace, as matched by the `\s` class in the source's regexes
(the source only ever feeds it ordinary form strings). -/
def isWsJS (c : Char) : Bool := c = ' ' || c = '\t' || c = '\n' || c = '\r'

/-- `s.replace(/\s+/g, "_")` on a character list: every maximal run of
whitespace becomes a single underscore.  `prevWs` records whether the
previous character was part of a whitespace run already replaced. -/
def replaceWsRuns : List Char → Bool → List Char
  | [], _ => []
  | c :: rest, prevWs =>
    if isWsJS c then
      (if prevWs then [] else ['_']) ++ replaceWsRuns rest true
    else
      c :: replaceWsRuns rest false

/-- `s.replace(" ", "_")`: only the first occurrence of a single space. -/
def replaceFirstSpace : List Char → List Char
  | [] => []
  | c :: rest => if c = ' ' then '_' :: rest else c :: replaceFirstSpace rest

/-- `s.replace("_", " ")`: only the first underscore. -/
def replaceFirstUnderscore : List Char → List Char
  | [] => []
  | c :: rest => if c = '_' then ' ' :: rest else c :: replaceFirstUnderscore rest

/-- `s.replace(/\s+/g, "_").toUpperCase()` — the storage transform used for
contact source/status, account rating, deal businessLine/geo/entity/stage on
create, lead fields on create, activity outcome, and user role. -/
def toStorageAll (s : String) : String :=
  String.mk ((replaceWsRuns s.data false).map Char.toUpper)

/-- `s.replace(" ", "_").toUpperCase()` — the storage transform used for
account status/geo, activity type, update-deal geo, and update-lead
status/rating: only the first space becomes an underscore. -/
def toStorageFirst (s : String) : String :=
  String.mk ((replaceFirstSpace s.data).map Char.toUpper)

/-- `s.replace(/_/g, " ")` — the display transform replacing every
underscore. -/
def toDisplayAll (s : String) : String :=
  String.mk (s.data.map (fun c => if c = '_' then ' ' else c))

/-- `s.replace("_", " ")` — the display transform replacing only the first
underscore (account status/geo, deal geo/entity, lead status/rating,
activity type). -/
def toDisplayFirst (s : String) : String :=
  String.mk (replaceFirstUnderscore s.data)

/-- JS `x || d` for string-valued fields: `undefined` and `""` are both
falsy, so absent fields are modelled as `""`. -/
def jsOrS (x d : String) : String := if x = "" then d else x

/-- `field ? transform(field) : undefined` — the guard the handlers put
around every enum transform; the stored column is nullable. -/
def optField (f : String → String) (x : String) : Option String :=
  if x = "" then none else some (f x)

/-- JS `parseInt(q) || d`: `NaN` (modelled as `none`) and `0` are falsy. -/
def jsOrInt (x : Option Int) (d : Int) : Int :=
  match x with
  | none => d
  | some v => if v = 0 then d else v

def isDigitC (c : Char) : Bool := '0' ≤ c && c ≤ '9'

def isHexDigitC (c : Char) : Bool :=
  isDigitC c || ('a' ≤ c && c ≤ 'f') || ('A' ≤ c && c ≤ 'F')

def digitValC (c : Char) : Nat :=
  if '0' ≤ c && c ≤ '9' then c.toNat - '0'.toNat
  else if 'a' ≤ c && c ≤ 'f' then c.toNat - 'a'.toNat + 10
  else if 'A' ≤ c && c ≤ 'F' then c.toNat - 'A'.toNat + 10
  else 0

/-- Accumulate the maximal leading run of digits (in base `b`); `none` when
there is no leading digit at all. -/
def parseDigitRun (b : Nat) (isD : Char → Bool) : List Char → Nat → Bool → Option Nat
  | [], acc, seen => if seen then some acc else none
  | c :: rest, acc, seen =>
    if isD c then parseDigitRun b isD rest (acc * b + digitValC c) true
    else if seen then some acc else none

/-- JS `parseInt(s)` (no radix argument): skip leading whitespace, optional
sign, auto-detected `0x`/`0X` hex prefix, then the maximal digit prefix;
`NaN` (here `none`) when no digit follows. -/
def jsParseInt (s : String) : Option Int :=
  let cs := s.data.dropWhile isWsJS
  let (sign, cs) : Int × List Char :=
    match cs with
    | '-' :: rest => (-1, rest)
    | '+' :: rest => (1, rest)
    | rest => (1, rest)
  let body : Option Nat :=
    match cs with
    | '0' :: x :: rest =>
      if x = 'x' || x = 'X' then parseDigitRun 16 isHexDigitC rest 0 false
      else parseDigitRun 10 isDigitC ('0' :: x :: rest) 0 false
    | rest => parseDigitRun 10 isDigitC rest 0 false
  body.map (fun n => sign * (n : Int))

/-- `Math.ceil(a / b)` for integer operands, as used for `totalPages`.
For `b = 0` JS would give `Infinity`/`NaN`; the handlers never reach that
case because the defaulted `limit` is never `0` (`0` is falsy). -/
def ceilDivJS (a b : Int) : Int :=
  if b = 0 then 0
  else if 0 < b then (a + b - 1).fdiv b
  else (-a + -b - 1).fdiv (-b)

/-! ## Date parsing (`createDeal` closing-date handling)

`new Date(string)` on an ECMA Date Time String Format input, modelled as a
validity check plus extraction of the components.  Implementation-defined
lenient parsing of non-ISO strings is not modelled (the handler feeds every
string without a `'T'` through the ISO grammar by appending
`"T12:00:00.000Z"`, and the claims only exercise ISO-shaped inputs).
Extended six-digit years and the time-zone offset's effect on the epoch
value are not needed by any claim and are left out. -/

structure DateParts where
  year : Nat
  month : Nat
  day : Nat
  hour : Nat
  minute : Nat
  second : Nat
  ms : Nat
deriving DecidableEq, Repr

def isLeapYear (y : Nat) : Bool := (y % 4 = 0 && y % 100 ≠ 0) || y % 400 = 0

def daysInMonth (y m : Nat) : Nat :=
  if m = 2 then (if isLeapYear y then 29 else 28)
  else if m = 4 || m = 6 || m = 9 || m = 11 then 30
  else 31

/-- Read exactly `n` digits, returning their value and the rest. -/
def readNDigits (n : Nat) (cs : List Char) : Option (Nat × List Char) :=
  let ds := cs.take n
  if ds.length = n && ds.all isDigitC then
    some (ds.foldl (fun a c => a * 10 + digitValC c) 0, cs.drop n)
  else none

/-- `YYYY[-MM[-DD]]` with range checks; omitted month/day default to 1. -/
def parseDatePart (cs : List Char) : Option (Nat × Nat × Nat × List Char) :=
  match readNDigits 4 cs with
  | none => none
  | some (y, r1) =>
    match r1 with
    | '-' :: r2 =>
      match readNDigits 2 r2 with
      | none => none
      | some (m, r3) =>
        if m < 1 || 12 < m then none
        else
          match r3 with
          | '-' :: r4 =>
            match readNDigits 2 r4 with
            | none => none
            | some (d, r5) =>
              if d < 1 || daysInMonth y m < d then none else some (y, m, d, r5)
          | _ => some (y, m, 1, r3)
    | _ => some (y, 1, 1, r1)

/-- Optional `:ss` and `.fff` after the minutes. -/
def parseSecondsFrac : List Char → Option (Nat × Nat × List Char)
  | ':' :: r =>
    match readNDigits 2 r with
    | none => none
    | some (ss, r2) =>
      match r2 with
      | '.' :: r3 =>
        let ds := r3.takeWhile isDigitC
        if ds.length = 0 then none
        else some (ss, ds.foldl (fun a c => a * 10 + digitValC c) 0, r3.drop ds.length)
      | _ => some (ss, 0, r2)
  | r => some (0, 0, r)

/-- Trailing zone designator: nothing, `Z`, or `±HH:mm`. -/
def parseZone : List Char → Bool
  | [] => true
  | ['Z'] => true
  | c :: rest =>
    if c = '+' || c = '-' then
      match readNDigits 2 rest with
      | some (h, ':' :: r2) =>
        match readNDigits 2 r2 with
        | some (m, r3) => h ≤ 23 && m ≤ 59 && r3 = []
        | none => false
      | _ => false
    else false

def parseTimePart (y m d : Nat) (cs : List Char) : Option DateParts :=
  match readNDigits 2 cs with
  | none => none
  | some (hh, r1) =>
    match r1 with
    | ':' :: r2 =>
      match readNDigits 2 r2 with
      | none => none
      | some (mi, r3) =>
        match parseSecondsFrac r3 with
        | none => none
        | some (ss, ms, r4) =>
          if parseZone r4 &&
             (hh ≤ 23 || (hh = 24 && mi = 0 && ss = 0 && ms = 0)) &&
             mi ≤ 59 && ss ≤ 59 then
            some ⟨y, m, d, hh, mi, ss, ms⟩
          else none
    | _ => none

/-- `new Date(s)` validity/decomposition for Date Time String Format input;
`none` is JS's Invalid Date (`isNaN(d.getTime())`). -/
def parseIsoChars (cs : List Char) : Option DateParts :=
  match parseDatePart cs with
  | none => none
  | some (y, m, d, rest) =>
    match rest with
    | [] => some ⟨y, m, d, 0, 0, 0, 0⟩
    | 'T' :: t => parseTimePart y m d t
    | _ => none

/-- The `createDeal` closing-date conversion: absent stays absent; a string
containing `'T'` is parsed as a full timestamp; otherwise
`"T12:00:00.000Z"` is appended first; an invalid result is dropped to
absent (the `isNaN` check).  The request body is JSON, so the
`instanceof Date` branch of the source cannot fire and is not modelled. -/
def computeClosingDate (s : String) : Option DateParts :=
  if s = "" then none
  else if s.data.contains 'T' then parseIsoChars s.data
  else parseIsoChars (s ++ "T12:00:00.000Z").data

/-! ## Persistence gateway: pagination and responses

Each `get*s` handler issues `findMany({where, skip, take, orderBy})` plus a
`count({where})`.  `skip = (page-1)*limit`; ordering is by creation time
descending.  Prisma rejects a negative `skip` with an error (caught by the
handler as a 500); a negative `take` returns the last `|take|` records. -/

/-- "later first": the descending order on a `createdAt`-like key. -/
def descBy (key : α → Nat) (a b : α) : Prop := key b ≤ key a

instance (key : α → Nat) : DecidableRel (descBy key) :=
  fun a b => Nat.decLe (key b) (key a)

instance (key : α → Nat) : IsTotal α (descBy key) :=
  ⟨fun a b => Nat.le_total (key b) (key a)⟩

instance (key : α → Nat) : IsTrans α (descBy key) :=
  ⟨fun _ _ _ h1 h2 => Nat.le_trans h2 h1⟩

/-- Prisma `take`: nonnegative takes from the front, negative takes the last
`|t|` records of the ordered result. -/
def jsTake (t : Int) (l : List α) : List α :=
  if 0 ≤ t then l.take t.toNat else (l.reverse.take (-t).toNat).reverse

/-- `findMany({skip, take, orderBy: createdAt desc})` over the already
`where`-filtered rows; errors (surfaced to the handler's `catch`) when
`skip` is negative. -/
def prismaFindMany (key : α → Nat) (skip take : Int) (l : List α) :
    Except Unit (List α) :=
  if skip < 0 then .error ()
  else .ok (jsTake take ((List.insertionSort (descBy key) l).drop skip.toNat))

/-- The paginated list envelope: `{success, data, pagination}` on success,
the generic `{success:false, error}` 500 envelope on failure. -/
inductive ListResp (α : Type) where
  | ok (data : List α) (page limit : Int) (total : Nat) (totalPages : Int)
  | err
deriving DecidableEq

def ListResp.status : ListResp α → Nat
  | .ok _ _ _ _ _ => 200
  | .err => 500

def ListResp.success : ListResp α → Bool
  | .ok _ _ _ _ _ => true
  | .err => false

def ListResp.items : ListResp α → List α
  | .ok d _ _ _ _ => d
  | .err => []

/-- The common body of every `get*s` handler: filter by the `where` clause,
order by `key` descending, apply `skip = (page-1)*limit` and `take = limit`,
count the filtered rows, convert each returned row to display form with
`disp`, and report `totalPages = Math.ceil(total / limit)`. -/
def listCore (key : α → Nat) (flt : α → Bool) (disp : α → α)
    (page limit : Int) (store : List α) : ListResp α :=
  match prismaFindMany key ((page - 1) * limit) limit (store.filter flt) with
  | .error _ => .err
  | .ok items =>
      .ok (items.map disp) page limit (store.filter flt).length
        (ceilDivJS (store.filter flt).length limit)

/-- `parseInt(req.query.page as string) || 1` (`none` = the query key is
absent, so `parseInt` sees `undefined` and yields `NaN`). -/
def pageParam (q : Option String) : Int := jsOrInt (q.bind jsParseInt) 1

/-- `parseInt(req.query.limit as string) || 10`. -/
def limitParam (q : Option String) : Int := jsOrInt (q.bind jsParseInt) 10

/-- Single-item response envelope: 200/201 with data, 404 `{success:false}`
for a missed id lookup, 500 `{success:false}` for a caught store error. -/
inductive Resp (α : Type) where
  | ok (status : Nat) (data : α)
  | notFound
  | fail
deriving DecidableEq

def Resp.status : Resp α → Nat
  | .ok s _ => s
  | .notFound => 404
  | .fail => 500

def Resp.success : Resp α → Bool
  | .ok _ _ => true
  | _ => false

def Resp.data : Resp α → Option α
  | .ok _ d => some d
  | _ => none

/-- Does `needle` occur contiguously inside the second list? -/
def hasInfix (needle : List Char) : List Char → Bool
  | [] => needle.isEmpty
  | c :: t => needle.isPrefixOf (c :: t) || hasInfix needle t

/-- Case-insensitive substring match: Prisma
`{contains: search, mode: "insensitive"}`. -/
def containsCI (hay needle : String) : Bool :=
  hasInfix (needle.data.map Char.toLower) (hay.data.map Char.toLower)

/-! ## Contacts (`getContacts` / `getContact` / `createContact` /
`deleteContact`) -/

structure ContactRec where
  id : String := ""
  firstName : String := ""
  lastName : String := ""
  title : String := ""
  associatedAccount : String := ""
  emailAddress : String := ""
  deskPhone : String := ""
  mobilePhone : String := ""
  city : String := ""
  state : String := ""
  country : String := ""
  timeZone : String := ""
  owner : String := ""
  source : Option String := none
  status : Option String := none
  createdBy : String := ""
  updatedBy : String := ""
  createdAt : Nat := 0
deriving DecidableEq

/-- The `where` clause of `getContacts`: no filter without a (truthy) search
term, otherwise an OR of insensitive contains on first/last name and
email. -/
def contactWhere (search : String) (c : ContactRec) : Bool :=
  if search = "" then true
  else containsCI c.firstName search || containsCI c.lastName search ||
    containsCI c.emailAddress search

/-- Read-side enum mapping of a contact row: `source`/`status` get
`replace(/_/g, " ")`.  The spread keeps every other column, so the display
record has the same shape. -/
def dispContact (c : ContactRec) : ContactRec :=
  { c with source := c.source.map toDisplayAll,
           status := c.status.map toDisplayAll }

def getContactsCore (page limit : Int) (search : String)
    (store : List ContactRec) : ListResp ContactRec :=
  listCore (·.createdAt) (contactWhere search) dispContact page limit store

def getContactsHandler (qpage qlimit qsearch : Option String)
    (store : List ContactRec) : ListResp ContactRec :=
  getContactsCore (pageParam qpage) (limitParam qlimit) (qsearch.getD "") store

/-- `findUnique({where: {id}})`; ids are unique in the store, modelled by the
first match.  The eagerly included relations are not needed by any claim. -/
def getContactHandler (id : String) (store : List ContactRec) :
    Resp ContactRec :=
  match store.find? (fun c => c.id == id) with
  | none => .notFound
  | some c => .ok 200 (dispContact c)

/-- JS `split(' ')` at the character level: split at every single space,
keeping empty pieces. -/
def splitSpaceChars : List Char → List (List Char)
  | [] => [[]]
  | c :: rest =>
    let r := splitSpaceChars rest
    if c = ' ' then [] :: r else (c :: r.headD []) :: r.tail

/-- JS `s.split(' ')`. -/
def jsSplitSpace (s : String) : List String :=
  (splitSpaceChars s.data).map String.mk

/-- JS `parts.join(' ')`. -/
def joinSpace : List String → String
  | [] => ""
  | [s] => s
  | s :: rest => s ++ " " ++ joinSpace rest

/-- `name ? name.split(' ') : []`. -/
def namePartsOf (name : String) : List String :=
  if name = "" then [] else jsSplitSpace name

/-- `data.firstName || nameParts[0] || ''`. -/
def firstNameOf (explicitFirst name : String) : String :=
  jsOrS explicitFirst ((namePartsOf name).headD "")

/-- `data.lastName || nameParts.slice(1).join(' ') || ''`. -/
def lastNameOf (explicitLast name : String) : String :=
  jsOrS explicitLast (joinSpace ((namePartsOf name).drop 1))

structure ContactReq where
  name : String := ""
  firstName : String := ""
  lastName : String := ""
  title : String := ""
  associatedAccount : String := ""
  emailAddress : String := ""
  email : String := ""
  deskPhone : String := ""
  mobilePhone : String := ""
  phone : String := ""
  city : String := ""
  state : String := ""
  country : String := ""
  timeZone : String := ""
  source : String := ""
  owner : String := ""
  status : String := ""
deriving DecidableEq

/-- The `contactData` object `createContact` hands to `prisma.contact.create`
(plus the generated id and creation timestamp the store supplies). -/
def mkContactRec (freshId : String) (req : ContactReq) (now : Nat) :
    ContactRec where
  id := freshId
  firstName := firstNameOf req.firstName req.name
  lastName := lastNameOf req.lastName req.name
  title := req.title
  associatedAccount := req.associatedAccount
  emailAddress := jsOrS req.emailAddress req.email
  deskPhone := req.deskPhone
  mobilePhone := jsOrS req.mobilePhone req.phone
  city := req.city
  state := req.state
  country := req.country
  timeZone := req.timeZone
  owner := req.owner
  source := optField toStorageAll req.source
  status := optField toStorageAll req.status
  createdBy := "system"
  updatedBy := "system"
  createdAt := now

/-- `createContact`: build `contactData`, insert it, answer 201 with the
display-mapped created row. -/
def createContactHandler (freshId : String) (req : ContactReq) (now : Nat)
    (store : List ContactRec) : List ContactRec × Resp ContactRec :=
  let c := mkContactRec freshId req now
  (store ++ [c], .ok 201 (dispContact c))

/-- `deleteContact`: `prisma.contact.delete` throws when no row has the id,
and the handler's catch converts any error to the generic 500 envelope. -/
def deleteContactHandler (id : String) (store : List ContactRec) :
    List ContactRec × Resp Unit :=
  if store.any (fun c => c.id == id) then
    (store.filter (fun c => !(c.id == id)), .ok 200 ())
  else (store, .fail)

/-! ## Accounts (`getAccounts` / `getAccount` / `createAccount` /
`deleteAccount`) -/

structure AccountRec where
  id : String := ""
  accountName : String := ""
  industry : String := ""
  revenue : String := ""
  numberOfEmployees : String := ""
  city : String := ""
  state : String := ""
  country : String := ""
  website : String := ""
  accountOwner : String := ""
  boardNumber : String := ""
  accountRating : Option String := none
  status : Option String := none
  geo : Option String := none
  createdBy : String := ""
  updatedBy : String := ""
  createdAt : Nat := 0
deriving DecidableEq

/-- `getAccounts` `where`: OR of insensitive contains on name/industry. -/
def accountWhere (search : String) (a : AccountRec) : Bool :=
  if search = "" then true
  else containsCI a.accountName search || containsCI a.industry search

/-- Read-side mapping: rating `replace(/_/g, " ")`, status and geo
`replace("_", " ")` (first underscore only). -/
def dispAccount (a : AccountRec) : AccountRec :=
  { a with accountRating := a.accountRating.map toDisplayAll,
           status := a.status.map toDisplayFirst,
           geo := a.geo.map toDisplayFirst }

def getAccountsCore (page limit : Int) (search : String)
    (store : List AccountRec) : ListResp AccountRec :=
  listCore (·.createdAt) (accountWhere search) dispAccount page limit store

def getAccountsHandler (qpage qlimit qsearch : Option String)
    (store : List AccountRec) : ListResp AccountRec :=
  getAccountsCore (pageParam qpage) (limitParam qlimit) (qsearch.getD "") store

def getAccountHandler (id : String) (store : List AccountRec) :
    Resp AccountRec :=
  match store.find? (fun a => a.id == id) with
  | none => .notFound
  | some a => .ok 200 (dispAccount a)

structure AccountReq where
  accountName : String := ""
  industry : String := ""
  revenue : String := ""
  numberOfEmployees : String := ""
  city : String := ""
  state : String := ""
  country : String := ""
  website : String := ""
  accountOwner : String := ""
  boardNumber : String := ""
  accountRating : String := ""
  status : String := ""
  geo : String := ""
deriving DecidableEq

/-- `createAccount`'s create data: the spread request plus the enum
transforms — rating via `replace(/\s+/g, "_")`, status and geo via
`replace(" ", "_")` (first space only). -/
def mkAccountRec (freshId : String) (req : AccountReq) (now : Nat) :
    AccountRec where
  id := freshId
  accountName := req.accountName
  industry := req.industry
  revenue := req.revenue
  numberOfEmployees := req.numberOfEmployees
  city := req.city
  state := req.state
  country := req.country
  website := req.website
  accountOwner := req.accountOwner
  boardNumber := req.boardNumber
  accountRating := optField toStorageAll req.accountRating
  status := optField toStorageFirst req.status
  geo := optField toStorageFirst req.geo
  createdBy := "system"
  updatedBy := "system"
  createdAt := now

def createAccountHandler (freshId : String) (req : AccountReq) (now : Nat)
    (store : List AccountRec) : List AccountRec × Resp AccountRec :=
  let a := mkAccountRec freshId req now
  (store ++ [a], .ok 201 (dispAccount a))

/-- `deleteAccount`: like `deleteContact`, a missed id makes
`prisma.account.delete` throw and the handler answers 500. -/
def deleteAccountHandler (id : String) (store : List AccountRec) :
    List AccountRec × Resp Unit :=
  if store.any (fun a => a.id == id) then
    (store.filter (fun a => !(a.id == id)), .ok 200 ())
  else (store, .fail)

/-! ## Activities (`createActivity`) -/

structure ActivityRec where
  id : String := ""
  activityType : String := ""
  outcomeDisposition : Option String := none
  dateTime : Nat := 0
  associatedContact : String := ""
  associatedAccount : String := ""
  createdBy : String := ""
  updatedBy : String := ""
deriving DecidableEq

structure ActivityReq where
  activityType : String := ""
  outcomeDisposition : String := ""
  dateTime : Nat := 0
  associatedContact : String := ""
  associatedAccount : String := ""
deriving DecidableEq

/-- `createActivity` data: `activityType.replace(" ", "_").toUpperCase()`
(first space only, and unguarded — the column is required), outcome via
`replace(/\s+/g, "_")`. -/
def mkActivityRec (freshId : String) (req : ActivityReq) : ActivityRec where
  id := freshId
  activityType := toStorageFirst req.activityType
  outcomeDisposition := optField toStorageAll req.outcomeDisposition
  dateTime := req.dateTime
  associatedContact := req.associatedContact
  associatedAccount := req.associatedAccount
  createdBy := "system"
  updatedBy := "system"

/-- Read-side mapping: type `replace("_", " ")` (first underscore only),
outcome `replace(/_/g, " ")`. -/
def dispActivity (a : ActivityRec) : ActivityRec :=
  { a with activityType := toDisplayFirst a.activityType,
           outcomeDisposition := a.outcomeDisposition.map toDisplayAll }

def createActivityHandler (freshId : String) (req : ActivityReq)
    (store : List ActivityRec) : List ActivityRec × Resp ActivityRec :=
  let a := mkActivityRec freshId req
  (store ++ [a], .ok 201 (dispActivity a))

/-- `getActivity`: `findUnique({where: {id}})`; 404 on a miss,
display-mapped row otherwise. -/
def getActivityHandler (id : String) (store : List ActivityRec) :
    Resp ActivityRec :=
  match store.find? (fun a => a.id == id) with
  | none => .notFound
  | some a => .ok 200 (dispActivity a)

/-! ## Deals (`getDeals` / `createDeal`) -/

structure DealRec where
  id : String := ""
  dealOwner : String := ""
  dealName : String := ""
  associatedAccount : String := ""
  associatedContact : String := ""
  closingDate : Option DateParts := none
  probability : Option String := none
  dealValue : Option String := none
  approvedBy : String := ""
  description : String := ""
  nextStep : String := ""
  businessLine : Option String := none
  geo : Option String := none
  entity : Option String := none
  stage : Option String := none
  createdBy : String := ""
  updatedBy : String := ""
  createdAt : Nat := 0
deriving DecidableEq

structure DealReq where
  dealOwner : String := ""
  owner : String := ""
  dealName : String := ""
  businessLine : String := ""
  associatedAccount : String := ""
  associatedContact : String := ""
  closingDate : String := ""
  probability : String := ""
  dealValue : String := ""
  approvedBy : String := ""
  description : String := ""
  nextStep : String := ""
  geo : String := ""
  entity : String := ""
  stage : String := ""
deriving DecidableEq

/-- The `dealData` object `createDeal` hands to `prisma.activeDeal.create`:
owner fallback, the date conversion, `String(...)` coercions guarded by
truthiness, and `replace(/\s+/g, "_").toUpperCase()` on all four enum
fields. -/
def mkDealRec (freshId : String) (req : DealReq) (now : Nat) : DealRec where
  id := freshId
  dealOwner := jsOrS req.dealOwner req.owner
  dealName := req.dealName
  associatedAccount := req.associatedAccount
  associatedContact := req.associatedContact
  closingDate := computeClosingDate req.closingDate
  probability := if req.probability = "" then none else some req.probability
  dealValue := if req.dealValue = "" then none else some req.dealValue
  approvedBy := req.approvedBy
  description := req.description
  nextStep := req.nextStep
  businessLine := optField toStorageAll req.businessLine
  geo := optField toStorageAll req.geo
  entity := optField toStorageAll req.entity
  stage := optField toStorageAll req.stage
  createdBy := "system"
  updatedBy := "system"
  createdAt := now

/-- Read-side mapping: businessLine and stage `replace(/_/g, " ")`, geo and
entity `replace("_", " ")`. -/
def dispDeal (d : DealRec) : DealRec :=
  { d with businessLine := d.businessLine.map toDisplayAll,
           geo := d.geo.map toDisplayFirst,
           entity := d.entity.map toDisplayFirst,
           stage := d.stage.map toDisplayAll }

def createDealHandler (freshId : String) (req : DealReq) (now : Nat)
    (store : List DealRec) : List DealRec × Resp DealRec :=
  let d := mkDealRec freshId req now
  (store ++ [d], .ok 201 (dispDeal d))

def getDealsCore (page limit : Int) (store : List DealRec) :
    ListResp DealRec :=
  listCore (·.createdAt) (fun _ => true) dispDeal page limit store

def getDealsHandler (qpage qlimit : Option String) (store : List DealRec) :
    ListResp DealRec :=
  getDealsCore (pageParam qpage) (limitParam qlimit) store

/-- `getDeal`: `findUnique({where: {id}})` with the included relations not
needed by any claim; 404 on a miss, display-mapped row otherwise. -/
def getDealHandler (id : String) (store : List DealRec) : Resp DealRec :=
  match store.find? (fun d => d.id == id) with
  | none => .notFound
  | some d => .ok 200 (dispDeal d)

/-! ## Leads (`createLead` / `updateLead`) -/

structure LeadRec where
  id : String := ""
  firstName : String := ""
  lastName : String := ""
  company : String := ""
  title : String := ""
  phone : String := ""
  email : String := ""
  owner : String := ""
  leadSource : Option String := none
  status : Option String := none
  rating : Option String := none
  createdBy : String := ""
  updatedBy : String := ""
  createdAt : Nat := 0
deriving DecidableEq

structure LeadReq where
  name : String := ""
  firstName : String := ""
  lastName : String := ""
  company : String := ""
  title : String := ""
  phone : String := ""
  email : String := ""
  leadSource : String := ""
  source : String := ""
  status : String := ""
  rating : String := ""
  owner : String := ""
deriving DecidableEq

/-- `createLead` data: the same name split as `createContact`;
`(data.leadSource || data.source)` feeds the source transform; every enum
field uses `replace(/\s+/g, "_").toUpperCase()`. -/
def mkLeadRec (freshId : String) (req : LeadReq) (now : Nat) : LeadRec where
  id := freshId
  firstName := firstNameOf req.firstName req.name
  lastName := lastNameOf req.lastName req.name
  company := req.company
  title := req.title
  phone := req.phone
  email := req.email
  owner := req.owner
  leadSource := optField toStorageAll (jsOrS req.leadSource req.source)
  status := optField toStorageAll req.status
  rating := optField toStorageAll req.rating
  createdBy := "system"
  updatedBy := "system"
  createdAt := now

/-- Read-side mapping: leadSource `replace(/_/g, " ")`, status and rating
`replace("_", " ")`. -/
def dispLead (l : LeadRec) : LeadRec :=
  { l with leadSource := l.leadSource.map toDisplayAll,
           status := l.status.map toDisplayFirst,
           rating := l.rating.map toDisplayFirst }

def createLeadHandler (freshId : String) (req : LeadReq) (now : Nat)
    (store : List LeadRec) : List LeadRec × Resp LeadRec :=
  let l := mkLeadRec freshId req now
  (store ++ [l], .ok 201 (dispLead l))

/-- `getLead`: `findUnique({where: {id}})`; 404 on a miss, display-mapped
row otherwise. -/
def getLeadHandler (id : String) (store : List LeadRec) : Resp LeadRec :=
  match store.find? (fun l => l.id == id) with
  | none => .notFound
  | some l => .ok 200 (dispLead l)

/-- The update data of `updateLead` applied to the found row: fields the
request leaves `undefined` keep their stored value; `leadSource` uses
`replace(/\s+/g, "_")` but `status` and `rating` use `replace(" ", "_")`
(first space only). -/
def updLeadRec (old : LeadRec) (req : LeadReq) : LeadRec :=
  { old with
    firstName := jsOrS req.firstName old.firstName
    lastName := jsOrS req.lastName old.lastName
    company := jsOrS req.company old.company
    title := jsOrS req.title old.title
    phone := jsOrS req.phone old.phone
    email := jsOrS req.email old.email
    owner := jsOrS req.owner old.owner
    leadSource :=
      if req.leadSource = "" then old.leadSource
      else some (toStorageAll req.leadSource)
    status :=
      if req.status = "" then old.status
      else some (toStorageFirst req.status)
    rating :=
      if req.rating = "" then old.rating
      else some (toStorageFirst req.rating)
    updatedBy := "system" }

/-- `updateLead`: `prisma.lead.update` throws for a missing id (caught as
500); otherwise the row is rewritten and answered in display form. -/
def updateLeadHandler (id : String) (req : LeadReq) (store : List LeadRec) :
    List LeadRec × Resp LeadRec :=
  match store.find? (fun l => l.id == id) with
  | none => (store, .fail)
  | some old =>
      let upd := updLeadRec old req
      (store.map (fun l => if l.id == id then upd else l), .ok 200 (dispLead upd))

/-! ## User profiles (`getCurrentUserProfile`) -/

structure UserProfileRec where
  id : String
  firstName : String
  lastName : String
  email : String
  title : String
  department : String
  phone : String
  timezone : String
  language : String
  role : Option String
  emailNotifications : Bool
  smsNotifications : Bool
  pushNotifications : Bool
deriving DecidableEq

/-- The default profile `getCurrentUserProfile` creates when the table is
empty.  The notification flags come from ORM schema defaults that are not
part of `src/`; the claims do not depend on their values. -/
def defaultProfile (freshId : String) : UserProfileRec where
  id := freshId
  firstName := "John"
  lastName := "Doe"
  email := "john.doe@yitro.com"
  title := "Sales Manager"
  department := "Sales"
  phone := "+1-555-0100"
  timezone := "EST"
  language := "en"
  role := some "SALES_MANAGER"
  emailNotifications := true
  smsNotifications := true
  pushNotifications := true

/-- The response record: the spread profile with `role` display-mapped by
`replace(/_/g, " ")`, plus the assembled `notifications` object. -/
structure ProfileDisp where
  base : UserProfileRec
  notifications : Bool × Bool × Bool
deriving DecidableEq

def dispProfile (p : UserProfileRec) : ProfileDisp where
  base := { p with role := p.role.map toDisplayAll }
  notifications := (p.emailNotifications, p.smsNotifications, p.pushNotifications)

/-- `getCurrentUserProfile`: `findFirst`, creating the default profile when
the table is empty ("current user" = first row). -/
def getCurrentUserProfileHandler (freshId : String)
    (store : List UserProfileRec) : List UserProfileRec × Resp ProfileDisp :=
  match store with
  | [] =>
      let p := defaultProfile freshId
      ([p], .ok 200 (dispProfile p))
  | p :: rest => (p :: rest, .ok 200 (dispProfile p))

/-! ## Reports (`generateReport`) -/

structure CRMStore where
  contacts : List ContactRec
  accounts : List AccountRec
  deals : List DealRec
  activities : List ActivityRec
  leads : List LeadRec
deriving DecidableEq

structure ReportReq where
  reportType : String := ""
  period : String := ""
  salesRep : String := ""
  geo : String := ""
  businessLine : String := ""
deriving DecidableEq

structure Metrics where
  totalContacts : Nat
  totalAccounts : Nat
  totalDeals : Nat
  totalActivities : Nat
  totalLeads : Nat
deriving DecidableEq

structure Report where
  id : String
  reportType : String
  period : String
  salesRep : String
  geo : String
  businessLine : String
  metrics : Metrics
  generatedAt : Nat
  generatedBy : String
deriving DecidableEq

/-- `generateReport`: echoes the request's filter fields and fills the
metrics with the plain `count()` of every entity — no `where` clause is
derived from the filters.  `Date.now()` is passed in as `now`. -/
def generateReportHandler (req : ReportReq) (now : Nat) (db : CRMStore) :
    Resp Report :=
  .ok 200
    { id := "report_" ++ toString now
      reportType := req.reportType
      period := req.period
      salesRep := req.salesRep
      geo := req.geo
      businessLine := req.businessLine
      metrics :=
        { totalContacts := db.contacts.length
          totalAccounts := db.accounts.length
          totalDeals := db.deals.length
          totalActivities := db.activities.length
          totalLeads := db.leads.length }
      generatedAt := now
      generatedBy := "system" }

def metricsOf (r : Resp Report) : Option Metrics := r.data.map Report.metrics

/-! ## Accounts view (`handleSaveAccount` in the React component) -/

structure AccountForm where
  accountName : String := ""
  industry : String := ""
  type : String := ""
  revenue : String := ""
  numberOfEmployees : String := ""
  city : String := ""
  state : String := ""
  country : String := ""
  website : String := ""
  accountOwner : String := ""
  accountRating : String := ""
  status : String := ""
  boardNumber : String := ""
deriving DecidableEq

/-- The `newAccountData` payload the view passes to `addAccount`. -/
structure NewAccountPayload where
  accountName : String
  industry : String
  accountRating : String
  revenue : String
  numberOfEmployees : String
  city : String
  state : String
  country : String
  website : String
  accountOwner : String
  status : String
  createdBy : String
  updatedBy : String
deriving DecidableEq

inductive SaveAccountAction where
  | refused
  | created (payload : NewAccountPayload)
  | updated (id : String) (form : AccountForm)
deriving DecidableEq

/-- `handleSaveAccount`: refuse (alert, no store call) unless both
`accountName` and `industry` are truthy; then either update the account
being edited with the raw form, or build `newAccountData` with the `||`
defaults and call `addAccount`. -/
def handleSaveAccount (editing : Option String) (form : AccountForm) :
    SaveAccountAction :=
  if form.accountName = "" || form.industry = "" then .refused
  else
    match editing with
    | some id => .updated id form
    | none =>
        .created
          { accountName := jsOrS form.accountName ""
            industry := jsOrS form.industry ""
            accountRating := jsOrS form.accountRating "BRONZE"
            revenue := jsOrS form.revenue "$0"
            numberOfEmployees := jsOrS form.numberOfEmployees "1-10"
            city := jsOrS form.city ""
            state := jsOrS form.state ""
            country := jsOrS form.country ""
            website := jsOrS form.website ""
            accountOwner := jsOrS form.accountOwner "Current User"
            status := jsOrS form.status "PROSPECT"
            createdBy := "current-user"
            updatedBy := "current-user" }

/-! ## Lemmas about the enum string transforms -/

/-- A character allowed inside an enum word: not whitespace, not an
underscore, and fixed by `toUpperCase`. -/
def enumWordChar (c : Char) : Prop :=
  isWsJS c = false ∧ c ≠ '_' ∧ c.toUpper = c

instance (c : Char) : Decidable (enumWordChar c) := by
  unfold enumWordChar; infer_instance

/-- Display form that survives the storage round trip: nonempty,
all-uppercase (every character fixed by `toUpperCase`), with at most one
space and no underscore. -/
def wellFormedDisplay (s : String) : Prop :=
  s ≠ "" ∧ s.data.count ' ' ≤ 1 ∧ ∀ c ∈ s.data, c = ' ' ∨ enumWordChar c

instance (s : String) : Decidable (wellFormedDisplay s) := by
  unfold wellFormedDisplay; infer_instance

/-- Canonical storage form: nonempty, all-uppercase, with at most one
underscore and no whitespace. -/
def canonicalEnum (s : String) : Prop :=
  s ≠ "" ∧ s.data.count '_' ≤ 1 ∧ ∀ c ∈ s.data, c = '_' ∨ enumWordChar c

instance (s : String) : Decidable (canonicalEnum s) := by
  unfold canonicalEnum; infer_instance

theorem replaceWsRuns_eq_self {cs : List Char}
    (h : ∀ c ∈ cs, isWsJS c = false) : ∀ b, replaceWsRuns cs b = cs := by
  induction cs with
  | nil => intro b; rfl
  | cons c t ih =>
    intro b
    have hc : isWsJS c = false := h c (List.mem_cons_self c t)
    have ht : ∀ x ∈ t, isWsJS x = false := fun x hx => h x (List.mem_cons_of_mem c hx)
    simp [replaceWsRuns, hc, ih ht]

theorem map_eq_self_of_fixed {f : Char → Char} {cs : List Char}
    (h : ∀ c ∈ cs, f c = c) : cs.map f = cs := by
  induction cs with
  | nil => rfl
  | cons c t ih =>
    simp [h c (List.mem_cons_self c t),
      ih (fun x hx => h x (List.mem_cons_of_mem c hx))]

theorem replaceWsRuns_space_cons (t : List Char) :
    replaceWsRuns (' ' :: t) false = '_' :: replaceWsRuns t true := by
  simp [replaceWsRuns, show isWsJS ' ' = true from by decide]

theorem replaceWsRuns_cons_of_not_ws {c : Char} (t : List Char)
    (hc : isWsJS c = false) (b : Bool) :
    replaceWsRuns (c :: t) b = c :: replaceWsRuns t false := by
  simp [replaceWsRuns, hc]

/-- Storage-then-display is the identity on well-formed display character
lists (at most one space, everything else an uppercase-fixed non-underscore
character). -/
theorem display_storage_chars {cs : List Char}
    (hmem : ∀ c ∈ cs, c = ' ' ∨ enumWordChar c) (hcount : cs.count ' ' ≤ 1) :
    ((replaceWsRuns cs false).map Char.toUpper).map
      (fun c => if c = '_' then ' ' else c) = cs := by
  induction cs with
  | nil => rfl
  | cons c t ih =>
    rcases hmem c (List.mem_cons_self c t) with hc | ⟨hw, hu, hup⟩
    · subst hc
      have hcount0 : t.count ' ' = 0 := by
        have := hcount
        rw [List.count_cons_self] at this
        omega
      have hnotmem : ' ' ∉ t := List.count_eq_zero.mp hcount0
      have htmem : ∀ x ∈ t, enumWordChar x := by
        intro x hx
        rcases hmem x (List.mem_cons_of_mem _ hx) with h1 | h2
        · exact absurd (h1 ▸ hx) hnotmem
        · exact h2
      rw [replaceWsRuns_space_cons,
        replaceWsRuns_eq_self (fun x hx => (htmem x hx).1) true]
      rw [List.map_cons, List.map_cons]
      rw [map_eq_self_of_fixed (fun x hx => (htmem x hx).2.2)]
      rw [map_eq_self_of_fixed (f := fun c => if c = '_' then ' ' else c)
        (fun x hx => if_neg (htmem x hx).2.1)]
      rw [show Char.toUpper '_' = '_' from by decide]
      simp
    · have hc' : c ≠ ' ' := by
        intro h; rw [h] at hw; exact absurd hw (by decide)
      have hcount' : t.count ' ' ≤ 1 := by
        have := hcount
        rw [List.count_cons_of_ne (by exact fun h => hc' h.symm)] at this
        exact this
      rw [replaceWsRuns_cons_of_not_ws t hw false, List.map_cons, hup,
        List.map_cons, if_neg hu,
        ih (fun x hx => hmem x (List.mem_cons_of_mem _ hx)) hcount']

/-- Display-then-storage is the identity on canonical storage character
lists (at most one underscore, everything else an uppercase-fixed
non-whitespace character). -/
theorem storage_display_chars {cs : List Char}
    (hmem : ∀ c ∈ cs, c = '_' ∨ enumWordChar c) (hcount : cs.count '_' ≤ 1) :
    (replaceWsRuns (cs.map (fun c => if c = '_' then ' ' else c)) false).map
      Char.toUpper = cs := by
  induction cs with
  | nil => rfl
  | cons c t ih =>
    rcases hmem c (List.mem_cons_self c t) with hc | ⟨hw, hu, hup⟩
    · subst hc
      have hcount0 : t.count '_' = 0 := by
        have := hcount
        rw [List.count_cons_self] at this
        omega
      have hnotmem : '_' ∉ t := List.count_eq_zero.mp hcount0
      have htmem : ∀ x ∈ t, enumWordChar x := by
        intro x hx
        rcases hmem x (List.mem_cons_of_mem _ hx) with h1 | h2
        · exact absurd (h1 ▸ hx) hnotmem
        · exact h2
      rw [List.map_cons, if_pos rfl,
        map_eq_self_of_fixed (f := fun c => if c = '_' then ' ' else c)
          (fun x hx => if_neg (htmem x hx).2.1)]
      rw [replaceWsRuns_space_cons,
        replaceWsRuns_eq_self (fun x hx => (htmem x hx).1) true]
      rw [List.map_cons, map_eq_self_of_fixed (fun x hx => (htmem x hx).2.2)]
      rw [show Char.toUpper '_' = '_' from by decide]
    · have hc' : c ≠ '_' := hu
      have hcount' : t.count '_' ≤ 1 := by
        have := hcount
        rw [List.count_cons_of_ne (by exact fun h => hc' h.symm)] at this
        exact this
      rw [List.map_cons, if_neg hu,
        replaceWsRuns_cons_of_not_ws _ hw false, List.map_cons, hup,
        ih (fun x hx => hmem x (List.mem_cons_of_mem _ hx)) hcount']

theorem toDisplayAll_toStorageAll {s : String} (h : wellFormedDisplay s) :
    toDisplayAll (toStorageAll s) = s := by
  unfold toDisplayAll toStorageAll
  rw [show (String.mk ((replaceWsRuns s.data false).map Char.toUpper)).data
      = (replaceWsRuns s.data false).map Char.toUpper from rfl]
  rw [display_storage_chars h.2.2 h.2.1]

theorem toStorageAll_toDisplayAll {s : String} (h : canonicalEnum s) :
    toStorageAll (toDisplayAll s) = s := by
  unfold toDisplayAll toStorageAll
  rw [show (String.mk (s.data.map (fun c => if c = '_' then ' ' else c))).data
      = s.data.map (fun c => if c = '_' then ' ' else c) from rfl]
  rw [storage_display_chars h.2.2 h.2.1]

theorem replaceFirstUnderscore_cons_underscore (t : List Char) :
    replaceFirstUnderscore ('_' :: t) = ' ' :: t := by
  simp [replaceFirstUnderscore]

theorem replaceFirstUnderscore_cons_of_ne {c : Char} (t : List Char)
    (h : c ≠ '_') :
    replaceFirstUnderscore (c :: t) = c :: replaceFirstUnderscore t := by
  simp [replaceFirstUnderscore, h]

theorem replaceFirstSpace_cons_space (t : List Char) :
    replaceFirstSpace (' ' :: t) = '_' :: t := by
  simp [replaceFirstSpace]

theorem replaceFirstSpace_cons_of_ne {c : Char} (t : List Char)
    (h : c ≠ ' ') :
    replaceFirstSpace (c :: t) = c :: replaceFirstSpace t := by
  simp [replaceFirstSpace, h]

/-- The run-replacing storage transform followed by the first-underscore
display transform is also the identity on well-formed display character
lists: with at most one space there is at most one underscore to undo. -/
theorem firstUnderscore_storage_chars {cs : List Char}
    (hmem : ∀ c ∈ cs, c = ' ' ∨ enumWordChar c) (hcount : cs.count ' ' ≤ 1) :
    replaceFirstUnderscore ((replaceWsRuns cs false).map Char.toUpper) = cs := by
  induction cs with
  | nil => rfl
  | cons c t ih =>
    rcases hmem c (List.mem_cons_self c t) with hc | ⟨hw, hu, hup⟩
    · subst hc
      have hcount0 : t.count ' ' = 0 := by
        have := hcount
        rw [List.count_cons_self] at this
        omega
      have hnotmem : ' ' ∉ t := List.count_eq_zero.mp hcount0
      have htmem : ∀ x ∈ t, enumWordChar x := by
        intro x hx
        rcases hmem x (List.mem_cons_of_mem _ hx) with h1 | h2
        · exact absurd (h1 ▸ hx) hnotmem
        · exact h2
      rw [replaceWsRuns_space_cons,
        replaceWsRuns_eq_self (fun x hx => (htmem x hx).1) true]
      rw [List.map_cons, map_eq_self_of_fixed (fun x hx => (htmem x hx).2.2)]
      rw [show Char.toUpper '_' = '_' from by decide,
        replaceFirstUnderscore_cons_underscore]
    · have hc' : c ≠ ' ' := by
        intro h; rw [h] at hw; exact absurd hw (by decide)
      have hcount' : t.count ' ' ≤ 1 := by
        have := hcount
        rw [List.count_cons_of_ne (by exact fun h => hc' h.symm)] at this
        exact this
      rw [replaceWsRuns_cons_of_not_ws t hw false, List.map_cons, hup,
        replaceFirstUnderscore_cons_of_ne _ hu,
        ih (fun x hx => hmem x (List.mem_cons_of_mem _ hx)) hcount']

/-- The first-space storage transform followed by the first-underscore
display transform is the identity on well-formed display character
lists. -/
theorem firstUnderscore_firstSpace_chars {cs : List Char}
    (hmem : ∀ c ∈ cs, c = ' ' ∨ enumWordChar c) (hcount : cs.count ' ' ≤ 1) :
    replaceFirstUnderscore ((replaceFirstSpace cs).map Char.toUpper) = cs := by
  induction cs with
  | nil => rfl
  | cons c t ih =>
    rcases hmem c (List.mem_cons_self c t) with hc | ⟨hw, hu, hup⟩
    · subst hc
      have hcount0 : t.count ' ' = 0 := by
        have := hcount
        rw [List.count_cons_self] at this
        omega
      have hnotmem : ' ' ∉ t := List.count_eq_zero.mp hcount0
      have htmem : ∀ x ∈ t, enumWordChar x := by
        intro x hx
        rcases hmem x (List.mem_cons_of_mem _ hx) with h1 | h2
        · exact absurd (h1 ▸ hx) hnotmem
        · exact h2
      rw [replaceFirstSpace_cons_space, List.map_cons,
        map_eq_self_of_fixed (fun x hx => (htmem x hx).2.2)]
      rw [show Char.toUpper '_' = '_' from by decide,
        replaceFirstUnderscore_cons_underscore]
    · have hc' : c ≠ ' ' := by
        intro h; rw [h] at hw; exact absurd hw (by decide)
      have hcount' : t.count ' ' ≤ 1 := by
        have := hcount
        rw [List.count_cons_of_ne (by exact fun h => hc' h.symm)] at this
        exact this
      rw [replaceFirstSpace_cons_of_ne t hc', List.map_cons, hup,
        replaceFirstUnderscore_cons_of_ne _ hu,
        ih (fun x hx => hmem x (List.mem_cons_of_mem _ hx)) hcount']

theorem toDisplayFirst_toStorageAll {s : String} (h : wellFormedDisplay s) :
    toDisplayFirst (toStorageAll s) = s := by
  unfold toDisplayFirst toStorageAll
  rw [show (String.mk ((replaceWsRuns s.data false).map Char.toUpper)).data
      = (replaceWsRuns s.data false).map Char.toUpper from rfl]
  rw [firstUnderscore_storage_chars h.2.2 h.2.1]

theorem toDisplayFirst_toStorageFirst {s : String} (h : wellFormedDisplay s) :
    toDisplayFirst (toStorageFirst s) = s := by
  unfold toDisplayFirst toStorageFirst
  rw [show (String.mk ((replaceFirstSpace s.data).map Char.toUpper)).data
      = (replaceFirstSpace s.data).map Char.toUpper from rfl]
  rw [firstUnderscore_firstSpace_chars h.2.2 h.2.1]

/-- Pushing `replaceWsRuns` through a leading whitespace-free word followed
by a space. -/
theorem replaceWsRuns_word_space {w : List Char} (rest : List Char)
    (hw : ∀ c ∈ w, isWsJS c = false) :
    replaceWsRuns (w ++ ' ' :: rest) false = w ++ '_' :: replaceWsRuns rest true := by
  induction w with
  | nil => simpa using replaceWsRuns_space_cons rest
  | cons c t ih =>
    have hc : isWsJS c = false := hw c (List.mem_cons_self c t)
    rw [List.cons_append, replaceWsRuns_cons_of_not_ws _ hc false,
      ih (fun x hx => hw x (List.mem_cons_of_mem c hx))]
    rfl

/-- Same, but entering the word with `prevWs = true` (needs the word
nonempty so that the state resets before the space). -/
theorem replaceWsRuns_word_space_true {w : List Char} (rest : List Char)
    (hw : ∀ c ∈ w, isWsJS c = false) (hne : w ≠ []) :
    replaceWsRuns (w ++ ' ' :: rest) true = w ++ '_' :: replaceWsRuns rest true := by
  cases w with
  | nil => exact absurd rfl hne
  | cons c t =>
    have hc : isWsJS c = false := hw c (List.mem_cons_self c t)
    rw [List.cons_append, replaceWsRuns_cons_of_not_ws _ hc true,
      replaceWsRuns_word_space rest (fun x hx => hw x (List.mem_cons_of_mem c hx))]
    rfl

/-- `replace(" ", "_")` only touches the first space. -/
theorem replaceFirstSpace_word {w : List Char} (rest : List Char)
    (hw : ∀ c ∈ w, isWsJS c = false) :
    replaceFirstSpace (w ++ ' ' :: rest) = w ++ '_' :: rest := by
  induction w with
  | nil => simp [replaceFirstSpace]
  | cons c t ih =>
    have hc : isWsJS c = false := hw c (List.mem_cons_self c t)
    have hc' : c ≠ ' ' := by
      intro h; rw [h] at hc; exact absurd hc (by decide)
    rw [List.cons_append, replaceFirstSpace, if_neg hc',
      ih (fun x hx => hw x (List.mem_cons_of_mem c hx)), List.cons_append]

/-- `find?` over an appended singleton when the head list never matches. -/
theorem find?_append_singleton {α : Type} {p : α → Bool} {store : List α}
    (c : α) (h : ∀ r ∈ store, p r = false) (hc : p c = true) :
    List.find? p (store ++ [c]) = some c := by
  induction store with
  | nil => simp [List.find?, hc]
  | cons a t ih =>
    rw [List.cons_append, List.find?]
    rw [h a (List.mem_cons_self a t)]
    exact ih (fun r hr => h r (List.mem_cons_of_mem a hr))

/-! ## Lemmas about pagination -/

/-- `Math.ceil(total / limit)` on naturals with a positive limit is ceiling
division. -/
theorem ceilDivJS_natCast (t n : Nat) (hn : 1 ≤ n) :
    ceilDivJS (t : Int) (n : Int) = ((t + n - 1) / n : Nat) := by
  unfold ceilDivJS
  have hn0 : (n : Int) ≠ 0 := by
    have : n ≠ 0 := by omega
    exact_mod_cast this
  rw [if_neg hn0, if_pos (by exact_mod_cast hn)]
  have h1 : (t : Int) + n - 1 = ((t + n - 1 : Nat) : Int) := by
    have : 1 ≤ t + n := by omega
    push_cast [Nat.cast_sub this]
    ring
  rw [h1, ← Int.ofNat_fdiv]

/-- The successful branch of `listCore` for an in-range page and limit:
exactly the claim's skip/take over the descending-sorted filtered rows and
the ceiling `totalPages`. -/
theorem listCore_ok_spec {α : Type} (key : α → Nat) (flt : α → Bool)
    (disp : α → α) (p n : Nat) (hp : 1 ≤ p) (hn : 1 ≤ n) (store : List α) :
    listCore key flt disp (p : Int) (n : Int) store =
      .ok ((((List.insertionSort (descBy key) (store.filter flt)).drop
              ((p - 1) * n)).take n).map disp)
        (p : Int) (n : Int) (store.filter flt).length
        (((store.filter flt).length + n - 1) / n : Nat) := by
  have hskip : ((p : Int) - 1) * (n : Int) = (((p - 1) * n : Nat) : Int) := by
    rw [Nat.cast_mul, Nat.cast_sub hp, Nat.cast_one]
  have hnonneg : ¬ ((p : Int) - 1) * (n : Int) < 0 := by
    rw [hskip]
    exact not_lt.mpr (Int.natCast_nonneg _)
  have hfind : prismaFindMany key (((p : Int) - 1) * (n : Int)) (n : Int)
      (store.filter flt) =
      Except.ok (((List.insertionSort (descBy key) (store.filter flt)).drop
        ((p - 1) * n)).take n) := by
    unfold prismaFindMany jsTake
    rw [if_neg hnonneg, if_pos (by exact_mod_cast Nat.zero_le n)]
    rw [hskip, Int.toNat_natCast, Int.toNat_natCast]
  unfold listCore
  rw [hfind, ceilDivJS_natCast _ n hn]

/-- Whatever the query evaluates to, `listCore` answers with one of the two
envelopes. -/
theorem listCore_status {α : Type} (key : α → Nat) (flt : α → Bool)
    (disp : α → α) (page limit : Int) (store : List α) :
    (listCore key flt disp page limit store).status = 200 ∨
    (listCore key flt disp page limit store).status = 500 := by
  unfold listCore
  split
  · right; rfl
  · left; rfl

/-- The rows of a drop/take page of an `insertionSort` are still sorted. -/
theorem pairwise_page {α : Type} (key : α → Nat) (l : List α) (k n : Nat) :
    List.Pairwise (descBy key)
      (((List.insertionSort (descBy key) l).drop k).take n) := by
  have hsorted : List.Pairwise (descBy key) (List.insertionSort (descBy key) l) :=
    List.sorted_insertionSort (descBy key) l
  exact hsorted.sublist
    ((List.take_sublist _ _).trans (List.drop_sublist _ _))

theorem jsOrS_empty (x : String) : jsOrS x "" = x := by
  by_cases h : x = "" <;> simp [jsOrS, h]

/-! ## Claim theorems -/

/-- C2, as stated, is false: deleting a non-existent id answers 500, not
404, because the handler's catch wraps the `prisma.delete` not-found error
in the generic failure envelope.  Concretely, deleting id `"missing"` from
an empty store. -/
theorem claim_c2_counterexample :
    (deleteContactHandler "missing" []).2.status = 500 ∧
    ¬ ((deleteContactHandler "missing" []).2.status = 404) ∧
    (deleteContactHandler "missing" []).2.success = false := by decide

/-- C2 (corrected): for every id not identifying an existing record, delete
(contact and account) answers 500 with `success:false` and leaves the store
unchanged; the not-found distinction is made only by the id-lookup reads,
e.g. `getContact`, which answer 404. -/
theorem claim_c2_delete_missing (id : String) (cstore : List ContactRec)
    (astore : List AccountRec)
    (hc : ∀ r ∈ cstore, r.id ≠ id) (ha : ∀ r ∈ astore, r.id ≠ id) :
    deleteContactHandler id cstore = (cstore, Resp.fail)
    ∧ deleteAccountHandler id astore = (astore, Resp.fail)
    ∧ (Resp.fail : Resp Unit).status = 500
    ∧ (Resp.fail : Resp Unit).success = false
    ∧ getContactHandler id cstore = Resp.notFound
    ∧ (Resp.notFound : Resp ContactRec).status = 404 := by
  have hanyc : cstore.any (fun c => c.id == id) = false := by
    rw [List.any_eq_false]
    intro x hx
    simpa using hc x hx
  have hanya : astore.any (fun a => a.id == id) = false := by
    rw [List.any_eq_false]
    intro x hx
    simpa using ha x hx
  have hfind : cstore.find? (fun c => c.id == id) = none := by
    rw [List.find?_eq_none]
    intro x hx
    simpa using hc x hx
  refine ⟨?_, ?_, rfl, rfl, ?_, rfl⟩
  · unfold deleteContactHandler
    rw [hanyc]
    rfl
  · unfold deleteAccountHandler
    rw [hanya]
    rfl
  · unfold getContactHandler
    rw [hfind]

/-- Witness for C2 (corrected) at the concrete id `"x"` and empty stores. -/
theorem claim_c2_witness :
    deleteContactHandler "x" ([] : List ContactRec) = ([], Resp.fail)
    ∧ deleteAccountHandler "x" ([] : List AccountRec) = ([], Resp.fail) :=
  ⟨(claim_c2_delete_missing "x" [] [] (by simp) (by simp)).1,
   (claim_c2_delete_missing "x" [] [] (by simp) (by simp)).2.1⟩

/-- C3: a create-deal request whose closing-date string parses to an
invalid date still succeeds — 201 with `success:true` — and the persisted
deal has no closing date; `"2024-13-45"` is such a string, while a
date-only string and a full ISO timestamp both parse as valid. -/
theorem claim_c3_invalid_closing_date (freshId : String) (req : DealReq)
    (now : Nat) (store : List DealRec)
    (h : computeClosingDate req.closingDate = none) :
    (createDealHandler freshId req now store).1 = store ++ [mkDealRec freshId req now]
    ∧ (mkDealRec freshId req now).closingDate = none
    ∧ (createDealHandler freshId req now store).2.status = 201
    ∧ (createDealHandler freshId req now store).2.success = true
    ∧ computeClosingDate "2024-13-45" = none
    ∧ (computeClosingDate "2024-06-15").isSome = true
    ∧ (computeClosingDate "2025-01-31T09:30:00.000Z").isSome = true :=
  ⟨rfl, h, rfl, rfl, by decide, by decide, by decide⟩

/-- Witness for C3 at the concrete invalid date `"2024-13-45"`. -/
theorem claim_c3_witness :
    computeClosingDate "2024-13-45" = none
    ∧ (mkDealRec "d1" { closingDate := "2024-13-45" } 0).closingDate = none
    ∧ (createDealHandler "d1" { closingDate := "2024-13-45" } 0 []).2.status = 201 :=
  ⟨by decide,
   (claim_c3_invalid_closing_date "d1" { closingDate := "2024-13-45" } 0 [] (by decide)).2.1,
   (claim_c3_invalid_closing_date "d1" { closingDate := "2024-13-45" } 0 [] (by decide)).2.2.1⟩

/-- C4: with a combined `name` and no explicit `firstName`/`lastName`, the
persisted contact (and lead) has `firstName` = the first `split(' ')` piece
of `name` and `lastName` = the remaining pieces joined by spaces; explicit
`firstName`/`lastName` take precedence. -/
theorem claim_c4_name_split (freshId : String) (now : Nat)
    (req : ContactReq) (lreq : LeadReq)
    (h1 : req.firstName = "") (h2 : req.lastName = "") (h3 : req.name ≠ "")
    (g1 : lreq.firstName = "") (g2 : lreq.lastName = "") (g3 : lreq.name ≠ "") :
    (mkContactRec freshId req now).firstName = (jsSplitSpace req.name).headD ""
    ∧ (mkContactRec freshId req now).lastName =
        joinSpace ((jsSplitSpace req.name).drop 1)
    ∧ (mkLeadRec freshId lreq now).firstName = (jsSplitSpace lreq.name).headD ""
    ∧ (mkLeadRec freshId lreq now).lastName =
        joinSpace ((jsSplitSpace lreq.name).drop 1)
    ∧ (∀ r : ContactReq, r.firstName ≠ "" →
        (mkContactRec freshId r now).firstName = r.firstName)
    ∧ (∀ r : ContactReq, r.lastName ≠ "" →
        (mkContactRec freshId r now).lastName = r.lastName)
    ∧ (∀ r : LeadReq, r.firstName ≠ "" →
        (mkLeadRec freshId r now).firstName = r.firstName)
    ∧ (∀ r : LeadReq, r.lastName ≠ "" →
        (mkLeadRec freshId r now).lastName = r.lastName) := by
  refine ⟨?_, ?_, ?_, ?_, ?_, ?_, ?_, ?_⟩
  · simp [mkContactRec, firstNameOf, namePartsOf, jsOrS, h1, h3]
  · simp [mkContactRec, lastNameOf, namePartsOf, jsOrS, h2, h3]
  · simp [mkLeadRec, firstNameOf, namePartsOf, jsOrS, g1, g3]
  · simp [mkLeadRec, lastNameOf, namePartsOf, jsOrS, g2, g3]
  · intro r hr; simp [mkContactRec, firstNameOf, jsOrS, hr]
  · intro r hr; simp [mkContactRec, lastNameOf, jsOrS, hr]
  · intro r hr; simp [mkLeadRec, firstNameOf, jsOrS, hr]
  · intro r hr; simp [mkLeadRec, lastNameOf, jsOrS, hr]

/-- Witness for C4 at `name = "Jane Doe"`. -/
theorem claim_c4_witness :
    (mkContactRec "c1" { name := "Jane Doe" } 0).firstName = "Jane"
    ∧ (mkContactRec "c1" { name := "Jane Doe" } 0).lastName = "Doe" :=
  ⟨((claim_c4_name_split "c1" 0 { name := "Jane Doe" } { name := "Jane Doe" }
      rfl rfl (by decide) rfl rfl (by decide)).1).trans (by decide),
   ((claim_c4_name_split "c1" 0 { name := "Jane Doe" } { name := "Jane Doe" }
      rfl rfl (by decide) rfl rfl (by decide)).2.1).trans (by decide)⟩

/-- C6: with no existing profile, the current-user endpoint creates exactly
one profile with the fixed default field values and returns it; with a
profile present it creates nothing and returns the first one, so the call
after the first creation returns the same record. -/
theorem claim_c6_profile_idempotent (id1 id2 : String) (p : UserProfileRec)
    (rest : List UserProfileRec) :
    (getCurrentUserProfileHandler id1 []).1 = [defaultProfile id1]
    ∧ (getCurrentUserProfileHandler id1 []).2 =
        .ok 200 (dispProfile (defaultProfile id1))
    ∧ defaultProfile id1 =
        { id := id1, firstName := "John", lastName := "Doe",
          email := "john.doe@yitro.com", title := "Sales Manager",
          department := "Sales", phone := "+1-555-0100", timezone := "EST",
          language := "en", role := some "SALES_MANAGER",
          emailNotifications := true, smsNotifications := true,
          pushNotifications := true }
    ∧ getCurrentUserProfileHandler id2 (p :: rest) =
        (p :: rest, .ok 200 (dispProfile p))
    ∧ getCurrentUserProfileHandler id2 ((getCurrentUserProfileHandler id1 []).1) =
        ((getCurrentUserProfileHandler id1 []).1,
         (getCurrentUserProfileHandler id1 []).2) :=
  ⟨rfl, rfl, rfl, rfl, rfl⟩

/-- C9: the generated report echoes the request's filter fields but its
metrics are the unfiltered total counts of all five entity collections, so
two requests with different filters over the same store get identical
metrics. -/
theorem claim_c9_report_unfiltered (req req2 : ReportReq) (now now2 : Nat)
    (db : CRMStore) :
    generateReportHandler req now db =
      .ok 200
        { id := "report_" ++ toString now, reportType := req.reportType,
          period := req.period, salesRep := req.salesRep, geo := req.geo,
          businessLine := req.businessLine,
          metrics :=
            { totalContacts := db.contacts.length,
              totalAccounts := db.accounts.length,
              totalDeals := db.deals.length,
              totalActivities := db.activities.length,
              totalLeads := db.leads.length },
          generatedAt := now, generatedBy := "system" }
    ∧ metricsOf (generateReportHandler req now db) =
        metricsOf (generateReportHandler req2 now2 db) :=
  ⟨rfl, rfl⟩

/-- C10: saving a new account with the optional fields left empty submits
the fixed defaults (`BRONZE`, `$0`, `1-10`, `Current User`, `PROSPECT`,
`current-user` audit fields); the save is refused whenever `accountName`
or `industry` is empty. -/
theorem claim_c10_save_account (form form2 : AccountForm)
    (editing : Option String)
    (hrefuse : form2.accountName = "" ∨ form2.industry = "")
    (hname : form.accountName ≠ "") (hind : form.industry ≠ "")
    (hr : form.accountRating = "") (hrev : form.revenue = "")
    (hemp : form.numberOfEmployees = "") (hown : form.accountOwner = "")
    (hst : form.status = "") :
    handleSaveAccount editing form2 = .refused
    ∧ handleSaveAccount none form =
        .created
          { accountName := form.accountName, industry := form.industry,
            accountRating := "BRONZE", revenue := "$0",
            numberOfEmployees := "1-10", city := form.city,
            state := form.state, country := form.country,
            website := form.website, accountOwner := "Current User",
            status := "PROSPECT", createdBy := "current-user",
            updatedBy := "current-user" } := by
  constructor
  · unfold handleSaveAccount
    rcases hrefuse with h | h <;> simp [h]
  · unfold handleSaveAccount
    rw [if_neg (by simp [hname, hind])]
    rw [hr, hrev, hemp, hown, hst]
    simp only [jsOrS_empty]
    simp [jsOrS]

/-- Witness for C10 at a form with only the required fields filled. -/
theorem claim_c10_witness :
    handleSaveAccount none { accountName := "", industry := "Technology" } = .refused
    ∧ handleSaveAccount none { accountName := "Acme", industry := "Technology" } =
        .created
          { accountName := "Acme", industry := "Technology",
            accountRating := "BRONZE", revenue := "$0",
            numberOfEmployees := "1-10", city := "", state := "",
            country := "", website := "", accountOwner := "Current User",
            status := "PROSPECT", createdBy := "current-user",
            updatedBy := "current-user" } :=
  ⟨(claim_c10_save_account { accountName := "Acme", industry := "Technology" }
      { accountName := "", industry := "Technology" } none (Or.inl rfl)
      (by decide) (by decide) rfl rfl rfl rfl rfl).1,
   (claim_c10_save_account { accountName := "Acme", industry := "Technology" }
      { accountName := "", industry := "Technology" } none (Or.inl rfl)
      (by decide) (by decide) rfl rfl rfl rfl rfl).2⟩

/-- The page of contacts the claim predicts: skip `(p-1)*n` of the
descending-sorted filtered rows, take `n`, display-map. -/
def contactPageItems (p n : Nat) (search : String) (store : List ContactRec) :
    List ContactRec :=
  (((List.insertionSort (descBy (·.createdAt))
      (store.filter (contactWhere search))).drop ((p - 1) * n)).take n).map
    dispContact

/-- Same for accounts. -/
def accountPageItems (p n : Nat) (search : String) (store : List AccountRec) :
    List AccountRec :=
  (((List.insertionSort (descBy (·.createdAt))
      (store.filter (accountWhere search))).drop ((p - 1) * n)).take n).map
    dispAccount

/-- C5: a list request with page `p ≥ 1` and limit `n ≥ 1` returns at most
`n` items, skips exactly `(p-1)*n` of the rows ordered by creation time
descending (the returned page stays in that order), counts `total` over the
search-filtered rows, and reports `totalPages = ceil(total/n)` — for both
the contacts and the accounts list handlers. -/
theorem claim_c5_pagination (p n : Nat) (hp : 1 ≤ p) (hn : 1 ≤ n)
    (search : String) (cstore : List ContactRec) (astore : List AccountRec) :
    (getContactsCore (p : Int) (n : Int) search cstore =
      .ok (contactPageItems p n search cstore) (p : Int) (n : Int)
        (cstore.filter (contactWhere search)).length
        (((cstore.filter (contactWhere search)).length + n - 1) / n : Nat))
    ∧ (contactPageItems p n search cstore).length ≤ n
    ∧ List.Pairwise (fun a b => b.createdAt ≤ a.createdAt)
        (contactPageItems p n search cstore)
    ∧ (getAccountsCore (p : Int) (n : Int) search astore =
      .ok (accountPageItems p n search astore) (p : Int) (n : Int)
        (astore.filter (accountWhere search)).length
        (((astore.filter (accountWhere search)).length + n - 1) / n : Nat))
    ∧ (accountPageItems p n search astore).length ≤ n
    ∧ List.Pairwise (fun a b => b.createdAt ≤ a.createdAt)
        (accountPageItems p n search astore) := by
  refine ⟨?_, ?_, ?_, ?_, ?_, ?_⟩
  · exact listCore_ok_spec _ _ _ p n hp hn cstore
  · unfold contactPageItems
    rw [List.length_map, List.length_take]
    exact min_le_left _ _
  · unfold contactPageItems
    rw [List.pairwise_map]
    exact pairwise_page (fun c : ContactRec => c.createdAt) _ _ _
  · exact listCore_ok_spec _ _ _ p n hp hn astore
  · unfold accountPageItems
    rw [List.length_map, List.length_take]
    exact min_le_left _ _
  · unfold accountPageItems
    rw [List.pairwise_map]
    exact pairwise_page (fun a : AccountRec => a.createdAt) _ _ _

/-- Witness for C5: page 2 with limit 1 over a two-contact store returns
the single older contact, with `total = 2` and `totalPages = 2`. -/
theorem claim_c5_witness :
    getContactsCore (2 : Int) (1 : Int) ""
        [{ id := "a", createdAt := 5 }, { id := "b", createdAt := 9 }] =
      .ok [{ id := "a", createdAt := 5 }] 2 1 2 2 := by
  have h := (claim_c5_pagination 2 1 (by decide) (by decide) ""
    [{ id := "a", createdAt := 5 }, { id := "b", createdAt := 9 }] []).1
  exact h.trans (by decide)

/-- C8: `page` defaults to 1 and `limit` to 10 whenever the query string is
absent or `parseInt` yields `NaN`; and whatever the raw query strings are,
the contacts and deals list handlers answer with a response envelope
(status 200 or 500), never crashing. -/
theorem claim_c8_param_defaults :
    (∀ q, q.bind jsParseInt = none → pageParam q = 1)
    ∧ (∀ q, q.bind jsParseInt = none → limitParam q = 10)
    ∧ (∀ qp ql qs (store : List ContactRec),
        (getContactsHandler qp ql qs store).status = 200 ∨
        (getContactsHandler qp ql qs store).status = 500)
    ∧ (∀ qp ql (store : List DealRec),
        (getDealsHandler qp ql store).status = 200 ∨
        (getDealsHandler qp ql store).status = 500) := by
  refine ⟨?_, ?_, ?_, ?_⟩
  · intro q hq
    unfold pageParam
    rw [hq]
    rfl
  · intro q hq
    unfold limitParam
    rw [hq]
    rfl
  · intro qp ql qs store
    exact listCore_status _ _ _ _ _ _
  · intro qp ql store
    exact listCore_status _ _ _ _ _ _

/-- Witness for C8: a non-numeric `page`, an absent `limit`, and a
negative-page request that still gets an envelope. -/
theorem claim_c8_witness :
    pageParam (some "abc") = 1 ∧ limitParam none = 10 ∧
    ((getContactsHandler (some "-5") (some "7") none []).status = 200 ∨
     (getContactsHandler (some "-5") (some "7") none []).status = 500) :=
  ⟨claim_c8_param_defaults.1 (some "abc") (by decide),
   claim_c8_param_defaults.2.1 none rfl,
   claim_c8_param_defaults.2.2.1 (some "-5") (some "7") none []⟩

/-- C1, as stated, is false: `"Call"` is a well-formed single-word display
value, but creating a contact with it and fetching the contact back returns
`"CALL"` — the storage transform uppercases and the display transform does
not undo that. -/
theorem claim_c1_counterexample :
    ((getContactHandler "c1"
        (createContactHandler "c1" { status := "Call", source := "Call" } 0 []).1).data.map
      (fun c => c.status) = some (some "CALL"))
    ∧ ¬ (((getContactHandler "c1"
        (createContactHandler "c1" { status := "Call", source := "Call" } 0 []).1).data.map
      (fun c => c.status)) = some (some "Call")) := by decide

/-- C1 (corrected): for every entity, for all-uppercase display values
(single word, or with a single space), creating a record with its enum
fields set to that value and fetching it by its id returns the submitted
value unchanged in every enum field — contacts (source/status), accounts
(rating/status/geo), deals (businessLine/geo/entity/stage), activities
(type/outcome), and leads (leadSource/status/rating); and
`toStorage (toDisplay x) = x` for all-uppercase canonical strings with at
most one underscore. -/
theorem claim_c1_enum_roundtrip (d x : String) (freshId : String) (now : Nat)
    (creq : ContactReq) (areq : AccountReq) (dreq : DealReq)
    (vreq : ActivityReq) (lreq : LeadReq)
    (cstore : List ContactRec) (astore : List AccountRec)
    (dstore : List DealRec) (vstore : List ActivityRec)
    (lstore : List LeadRec)
    (hcf : ∀ r ∈ cstore, r.id ≠ freshId) (haf : ∀ r ∈ astore, r.id ≠ freshId)
    (hdf : ∀ r ∈ dstore, r.id ≠ freshId) (hvf : ∀ r ∈ vstore, r.id ≠ freshId)
    (hlf : ∀ r ∈ lstore, r.id ≠ freshId)
    (hd : wellFormedDisplay d)
    (hc1 : creq.status = d) (hc2 : creq.source = d)
    (ha1 : areq.accountRating = d) (ha2 : areq.status = d) (ha3 : areq.geo = d)
    (hd1 : dreq.businessLine = d) (hd2 : dreq.geo = d) (hd3 : dreq.entity = d)
    (hd4 : dreq.stage = d)
    (hv1 : vreq.activityType = d) (hv2 : vreq.outcomeDisposition = d)
    (hl1 : lreq.leadSource = d) (hl2 : lreq.status = d) (hl3 : lreq.rating = d)
    (hx : canonicalEnum x) :
    ((getContactHandler freshId
        (createContactHandler freshId creq now cstore).1).data.map
      (fun c => (c.status, c.source)) = some (some d, some d))
    ∧ ((getAccountHandler freshId
        (createAccountHandler freshId areq now astore).1).data.map
      (fun a => (a.accountRating, a.status, a.geo)) =
        some (some d, some d, some d))
    ∧ ((getDealHandler freshId
        (createDealHandler freshId dreq now dstore).1).data.map
      (fun e => (e.businessLine, e.geo, e.entity, e.stage)) =
        some (some d, some d, some d, some d))
    ∧ ((getActivityHandler freshId
        (createActivityHandler freshId vreq vstore).1).data.map
      (fun a => (a.activityType, a.outcomeDisposition)) = some (d, some d))
    ∧ ((getLeadHandler freshId
        (createLeadHandler freshId lreq now lstore).1).data.map
      (fun l => (l.leadSource, l.status, l.rating)) =
        some (some d, some d, some d))
    ∧ toStorageAll (toDisplayAll x) = x := by
  have hnd : d ≠ "" := hd.1
  have hraa : toDisplayAll (toStorageAll d) = d := toDisplayAll_toStorageAll hd
  have hrfa : toDisplayFirst (toStorageAll d) = d := toDisplayFirst_toStorageAll hd
  have hrff : toDisplayFirst (toStorageFirst d) = d := toDisplayFirst_toStorageFirst hd
  have hgetc : getContactHandler freshId
      (createContactHandler freshId creq now cstore).1 =
      .ok 200 (dispContact (mkContactRec freshId creq now)) := by
    unfold getContactHandler createContactHandler
    rw [find?_append_singleton (mkContactRec freshId creq now)
      (fun r hr => by simpa using hcf r hr) (by simp [mkContactRec])]
  have hgeta : getAccountHandler freshId
      (createAccountHandler freshId areq now astore).1 =
      .ok 200 (dispAccount (mkAccountRec freshId areq now)) := by
    unfold getAccountHandler createAccountHandler
    rw [find?_append_singleton (mkAccountRec freshId areq now)
      (fun r hr => by simpa using haf r hr) (by simp [mkAccountRec])]
  have hgetd : getDealHandler freshId
      (createDealHandler freshId dreq now dstore).1 =
      .ok 200 (dispDeal (mkDealRec freshId dreq now)) := by
    unfold getDealHandler createDealHandler
    rw [find?_append_singleton (mkDealRec freshId dreq now)
      (fun r hr => by simpa using hdf r hr) (by simp [mkDealRec])]
  have hgetv : getActivityHandler freshId
      (createActivityHandler freshId vreq vstore).1 =
      .ok 200 (dispActivity (mkActivityRec freshId vreq)) := by
    unfold getActivityHandler createActivityHandler
    rw [find?_append_singleton (mkActivityRec freshId vreq)
      (fun r hr => by simpa using hvf r hr) (by simp [mkActivityRec])]
  have hgetl : getLeadHandler freshId
      (createLeadHandler freshId lreq now lstore).1 =
      .ok 200 (dispLead (mkLeadRec freshId lreq now)) := by
    unfold getLeadHandler createLeadHandler
    rw [find?_append_singleton (mkLeadRec freshId lreq now)
      (fun r hr => by simpa using hlf r hr) (by simp [mkLeadRec])]
  refine ⟨?_, ?_, ?_, ?_, ?_, toStorageAll_toDisplayAll hx⟩
  · rw [hgetc]
    show some ((dispContact (mkContactRec freshId creq now)).status,
      (dispContact (mkContactRec freshId creq now)).source) = some (some d, some d)
    simp [dispContact, mkContactRec, optField, hc1, hc2, hnd, hraa]
  · rw [hgeta]
    show some ((dispAccount (mkAccountRec freshId areq now)).accountRating,
      (dispAccount (mkAccountRec freshId areq now)).status,
      (dispAccount (mkAccountRec freshId areq now)).geo) =
      some (some d, some d, some d)
    simp [dispAccount, mkAccountRec, optField, ha1, ha2, ha3, hnd, hraa, hrff]
  · rw [hgetd]
    show some ((dispDeal (mkDealRec freshId dreq now)).businessLine,
      (dispDeal (mkDealRec freshId dreq now)).geo,
      (dispDeal (mkDealRec freshId dreq now)).entity,
      (dispDeal (mkDealRec freshId dreq now)).stage) =
      some (some d, some d, some d, some d)
    simp [dispDeal, mkDealRec, optField, hd1, hd2, hd3, hd4, hnd, hraa, hrfa]
  · rw [hgetv]
    show some ((dispActivity (mkActivityRec freshId vreq)).activityType,
      (dispActivity (mkActivityRec freshId vreq)).outcomeDisposition) =
      some (d, some d)
    simp [dispActivity, mkActivityRec, optField, hv1, hv2, hnd, hraa, hrff]
  · rw [hgetl]
    show some ((dispLead (mkLeadRec freshId lreq now)).leadSource,
      (dispLead (mkLeadRec freshId lreq now)).status,
      (dispLead (mkLeadRec freshId lreq now)).rating) =
      some (some d, some d, some d)
    simp [dispLead, mkLeadRec, optField, jsOrS, hl1, hl2, hl3, hnd, hraa, hrfa]

/-- Witness for C1 (corrected) at `"ACTIVE DEAL"` / `"ACTIVE_DEAL"`,
exercising a contact, an account, a deal, an activity and a lead. -/
theorem claim_c1_witness :
    ((getContactHandler "c9"
        (createContactHandler "c9"
          { status := "ACTIVE DEAL", source := "ACTIVE DEAL" } 0 []).1).data.map
      (fun c => (c.status, c.source)) =
        some (some "ACTIVE DEAL", some "ACTIVE DEAL"))
    ∧ ((getAccountHandler "c9"
        (createAccountHandler "c9"
          { accountRating := "ACTIVE DEAL", status := "ACTIVE DEAL",
            geo := "ACTIVE DEAL" } 0 []).1).data.map
      (fun a => (a.accountRating, a.status, a.geo)) =
        some (some "ACTIVE DEAL", some "ACTIVE DEAL", some "ACTIVE DEAL"))
    ∧ ((getActivityHandler "c9"
        (createActivityHandler "c9"
          { activityType := "ACTIVE DEAL",
            outcomeDisposition := "ACTIVE DEAL" } []).1).data.map
      (fun a => (a.activityType, a.outcomeDisposition)) =
        some ("ACTIVE DEAL", some "ACTIVE DEAL"))
    ∧ toStorageAll (toDisplayAll "ACTIVE_DEAL") = "ACTIVE_DEAL" :=
  let h := claim_c1_enum_roundtrip "ACTIVE DEAL" "ACTIVE_DEAL" "c9" 0
    { status := "ACTIVE DEAL", source := "ACTIVE DEAL" }
    { accountRating := "ACTIVE DEAL", status := "ACTIVE DEAL",
      geo := "ACTIVE DEAL" }
    { businessLine := "ACTIVE DEAL", geo := "ACTIVE DEAL",
      entity := "ACTIVE DEAL", stage := "ACTIVE DEAL" }
    { activityType := "ACTIVE DEAL", outcomeDisposition := "ACTIVE DEAL" }
    { leadSource := "ACTIVE DEAL", status := "ACTIVE DEAL",
      rating := "ACTIVE DEAL" }
    [] [] [] [] [] (by simp) (by simp) (by simp) (by simp) (by simp)
    (by decide) rfl rfl rfl rfl rfl rfl rfl rfl rfl rfl rfl rfl rfl rfl
    (by decide)
  ⟨h.1, h.2.1, h.2.2.2.1, h.2.2.2.2.2⟩

/-- C7, as stated, is false: the account-status write path replaces only
the first space, so `"Do Not Call"` is persisted as `"DO_NOT CALL"`, not
`"DO_NOT_CALL"`. -/
theorem claim_c7_counterexample :
    (mkAccountRec "a1" { status := "Do Not Call" } 0).status = some "DO_NOT CALL"
    ∧ ¬ ((mkAccountRec "a1" { status := "Do Not Call" } 0).status =
        some "DO_NOT_CALL") := by decide

/-- C7 (corrected): every enum write path uppercases, but only contact
source/status, account rating, the deal and lead create fields, activity
outcome, and update-lead leadSource replace every whitespace run with an
underscore; account status/geo, activity type, and update-lead
status/rating replace only the first space.  On a three-word display value
(`w1 w2 w3`) the former yields `W1_W2_W3` and the latter `W1_W2 W3`;
concretely `"Do Not Call"` becomes `"DO_NOT_CALL"` or `"DO_NOT CALL"`
respectively. -/
theorem claim_c7_storage_transforms (w1 w2 w3 : List Char)
    (h1 : ∀ c ∈ w1, isWsJS c = false) (h2 : ∀ c ∈ w2, isWsJS c = false)
    (h3 : ∀ c ∈ w3, isWsJS c = false) (hne : w2 ≠ []) :
    toStorageAll (String.mk (w1 ++ ' ' :: (w2 ++ ' ' :: w3))) =
      String.mk (w1.map Char.toUpper ++
        '_' :: (w2.map Char.toUpper ++ '_' :: w3.map Char.toUpper))
    ∧ toStorageFirst (String.mk (w1 ++ ' ' :: (w2 ++ ' ' :: w3))) =
      String.mk (w1.map Char.toUpper ++
        '_' :: (w2.map Char.toUpper ++ ' ' :: w3.map Char.toUpper))
    ∧ (∀ freshId (req : AccountReq) now,
        (mkAccountRec freshId req now).status = optField toStorageFirst req.status
        ∧ (mkAccountRec freshId req now).geo = optField toStorageFirst req.geo
        ∧ (mkAccountRec freshId req now).accountRating =
            optField toStorageAll req.accountRating)
    ∧ (∀ freshId (req : ContactReq) now,
        (mkContactRec freshId req now).status = optField toStorageAll req.status
        ∧ (mkContactRec freshId req now).source = optField toStorageAll req.source)
    ∧ (∀ freshId (req : ActivityReq),
        (mkActivityRec freshId req).activityType = toStorageFirst req.activityType
        ∧ (mkActivityRec freshId req).outcomeDisposition =
            optField toStorageAll req.outcomeDisposition)
    ∧ (∀ freshId (req : DealReq) now,
        (mkDealRec freshId req now).businessLine = optField toStorageAll req.businessLine
        ∧ (mkDealRec freshId req now).geo = optField toStorageAll req.geo
        ∧ (mkDealRec freshId req now).entity = optField toStorageAll req.entity
        ∧ (mkDealRec freshId req now).stage = optField toStorageAll req.stage)
    ∧ (∀ freshId (req : LeadReq) now,
        (mkLeadRec freshId req now).leadSource =
            optField toStorageAll (jsOrS req.leadSource req.source)
        ∧ (mkLeadRec freshId req now).status = optField toStorageAll req.status
        ∧ (mkLeadRec freshId req now).rating = optField toStorageAll req.rating)
    ∧ (∀ (old : LeadRec) (req : LeadReq),
        (updLeadRec old req).status =
          (if req.status = "" then old.status else some (toStorageFirst req.status))
        ∧ (updLeadRec old req).rating =
          (if req.rating = "" then old.rating else some (toStorageFirst req.rating))
        ∧ (updLeadRec old req).leadSource =
          (if req.leadSource = "" then old.leadSource
           else some (toStorageAll req.leadSource)))
    ∧ toStorageAll "Do Not Call" = "DO_NOT_CALL"
    ∧ toStorageFirst "Do Not Call" = "DO_NOT CALL" := by
  refine ⟨?_, ?_, fun _ _ _ => ⟨rfl, rfl, rfl⟩, fun _ _ _ => ⟨rfl, rfl⟩,
    fun _ _ => ⟨rfl, rfl⟩, fun _ _ _ => ⟨rfl, rfl, rfl, rfl⟩,
    fun _ _ _ => ⟨rfl, rfl, rfl⟩, fun _ _ => ⟨rfl, rfl, rfl⟩,
    by decide, by decide⟩
  · unfold toStorageAll
    rw [show (String.mk (w1 ++ ' ' :: (w2 ++ ' ' :: w3))).data =
        w1 ++ ' ' :: (w2 ++ ' ' :: w3) from rfl]
    rw [replaceWsRuns_word_space _ h1, replaceWsRuns_word_space_true _ h2 hne,
      replaceWsRuns_eq_self h3 true]
    simp [List.map_append, show Char.toUpper '_' = '_' from by decide]
  · unfold toStorageFirst
    rw [show (String.mk (w1 ++ ' ' :: (w2 ++ ' ' :: w3))).data =
        w1 ++ ' ' :: (w2 ++ ' ' :: w3) from rfl]
    rw [replaceFirstSpace_word _ h1]
    simp [List.map_append, show Char.toUpper '_' = '_' from by decide,
      show Char.toUpper ' ' = ' ' from by decide]

/-- Witness for C7 (corrected) at the words `Do`, `Not`, `Call`. -/
theorem claim_c7_witness :
    toStorageAll (String.mk (['D', 'o'] ++ ' ' :: (['N', 'o', 't'] ++ ' ' :: ['C', 'a', 'l', 'l']))) =
      String.mk (['D', 'o'].map Char.toUpper ++
        '_' :: (['N', 'o', 't'].map Char.toUpper ++ '_' :: ['C', 'a', 'l', 'l'].map Char.toUpper))
    ∧ toStorageFirst (String.mk (['D', 'o'] ++ ' ' :: (['N', 'o', 't'] ++ ' ' :: ['C', 'a', 'l', 'l']))) =
      String.mk (['D', 'o'].map Char.toUpper ++
        '_' :: (['N', 'o', 't'].map Char.toUpper ++ ' ' :: ['C', 'a', 'l', 'l'].map Char.toUpper)) :=
  ⟨(claim_c7_storage_transforms ['D', 'o'] ['N', 'o', 't'] ['C', 'a', 'l', 'l']
      (by decide) (by decide) (by decide) (by decide)).1,
   (claim_c7_storage_transforms ['D', 'o'] ['N', 'o', 't'] ['C', 'a', 'l', 'l']
      (by decide) (by decide) (by decide) (by decide)).2.1⟩

